import Mathlib

/-!
Shallow embedding of the SMP BLE transport (smpclient/transport/ble.py,
class SMPBLETransport): outgoing fragmentation (send), the receive-side
frame assembler (receive and the notification callback), and the
connection lifecycle, together with theorems about them.

Byte strings are modelled as List Nat.  The asynchronous interplay of the
single blocked receive call with the notification producer is modelled by
an explicit list of events (chunk deliveries and the peer-disconnect
notification); the receive coroutine is an interpreter over that event
list that mirrors the wait/wake structure of the source: a waiter is woken
exactly by the events that call notify on the shared condition.
-/

/-- Distinguishes the messages carried by SMPBLETransportException in the
source: buffer too small for the SMP header after the first wake, buffer
length passed the expected message size, and a notification from an
unexpected sender. -/
inductive ExcReason
  | bufferTooSmall
  | bufferOverrun
  | unexpectedSender
deriving DecidableEq, Repr

/-- The exception classes raised by the transport: SMPBLETransportException
(with its reason), SMPBLETransportDeviceNotFound (raised both when address
resolution fails and by check connected when the transport is
disconnected), and SMPBLETransportNotSMPServer. -/
inductive BLEError
  | transportException (r : ExcReason)
  | deviceNotFound
  | notSMPServer
deriving DecidableEq, Repr

/-- The mutable state shared by the receive coroutine and the notification
callback: the receive buffer (self dot buffer) and the connected flag. -/
structure TState where
  buffer : List Nat
  connected : Bool
deriving DecidableEq, Repr

namespace Header

/-- Size in bytes of the fixed SMP header (smp.header.Header.SIZE of the
external smp library collaborator: 8 bytes). -/
def SIZE : Nat := 8

end Header

/-- Length field of the SMP header, read from a byte sequence holding at
least a full header.  The header codec is the external smp library
collaborator; per the spec it is a fixed-size binary header carrying a
payload length, here the 16-bit big-endian field at offsets 2 and 3. -/
def headerLen (b : List Nat) : Nat := b.getD 2 0 * 256 + b.getD 3 0

/-- An occurrence visible to the frame assembler: a notification chunk
(whose sender may or may not be the SMP characteristic) or the
peer-disconnect callback. -/
inductive Event
  | chunk (senderOk : Bool) (data : List Nat)
  | disconnect
deriving DecidableEq, Repr

/-- Model of SMPBLETransport underscore notify underscore callback: if the
sender is not the SMP characteristic it raises SMPBLETransportException
before touching the buffer; otherwise it extends the buffer with the data
and notifies the waiter.  Returns the raised error (if any) and the buffer
afterwards. -/
def notify_callback (senderOk : Bool) (buffer data : List Nat) :
    Option BLEError × List Nat :=
  if senderOk then (none, buffer ++ data)
  else (some (BLEError.transportException ExcReason.unexpectedSender), buffer)

/-- Effect of one event on the shared state, together with whether the
event notifies (wakes) a waiter blocked on the condition.  A good chunk
appends and notifies; a bad-sender chunk changes nothing and does not
notify (the callback raised first); the disconnect callback clears the
connected flag and notifies, but only if the transport was connected
(underscore handle underscore disconnect returns early otherwise). -/
def applyEvent (s : TState) : Event → TState × Bool
  | Event.chunk ok data =>
    match notify_callback ok s.buffer data with
    | (some _, b) => ({ s with buffer := b }, false)
    | (none, b) => ({ s with buffer := b }, true)
  | Event.disconnect =>
    if s.connected then ({ s with connected := false }, true) else (s, false)

/-- Result of running the receive coroutine against an event list:
blocked (the event list ran out while receive was still waiting),
returned a message, or raised an error.  -/
inductive Outcome
  | blocked
  | returned (msg : List Nat)
  | errored (e : BLEError)
deriving DecidableEq, Repr

/-- A finished run: the outcome, the shared state afterwards, and how many
times the buffer-clear operation (self dot buffer dot clear) ran. -/
structure RecvRun where
  outcome : Outcome
  state : TState
  clears : Nat
deriving DecidableEq, Repr

/-- Model of the while-true loop of SMPBLETransport.receive that waits for
the rest of the message: each iteration checks connected (raising
SMPBLETransportDeviceNotFound if not), returns the buffer and clears it
when its length equals the expected message length, raises
SMPBLETransportException when the length passed the expected size, and
otherwise waits on the condition for the next notify. -/
def phase2 (L : Nat) (s : TState) (es : List Event) : RecvRun :=
  if s.connected then
    if s.buffer.length = L then
      ⟨Outcome.returned s.buffer, { s with buffer := [] }, 1⟩
    else if L < s.buffer.length then
      ⟨Outcome.errored (BLEError.transportException ExcReason.bufferOverrun), s, 0⟩
    else
      match es with
      | [] => ⟨Outcome.blocked, s, 0⟩
      | e :: rest => phase2 L (applyEvent s e).1 rest
  else ⟨Outcome.errored BLEError.deviceNotFound, s, 0⟩

/-- Model of the header phase of SMPBLETransport.receive: wait once on the
condition; when woken, check connected, raise SMPBLETransportException if
the buffer holds fewer than Header.SIZE bytes, otherwise decode the header
and enter the message loop with expected length headerLen plus
Header.SIZE.  Events that do not notify leave the waiter asleep. -/
def waitHeader (s : TState) (es : List Event) : RecvRun :=
  match es with
  | [] => ⟨Outcome.blocked, s, 0⟩
  | e :: rest =>
    let p := applyEvent s e
    if p.2 then
      if p.1.connected then
        if p.1.buffer.length < Header.SIZE then
          ⟨Outcome.errored (BLEError.transportException ExcReason.bufferTooSmall), p.1, 0⟩
        else phase2 (headerLen p.1.buffer + Header.SIZE) p.1 rest
      else ⟨Outcome.errored BLEError.deviceNotFound, p.1, 0⟩
    else waitHeader p.1 rest

/-- Model of SMPBLETransport.receive: check connected up front (raising
SMPBLETransportDeviceNotFound when disconnected, before waiting), then run
the header phase followed by the message loop. -/
def runReceive (s : TState) (es : List Event) : RecvRun :=
  if s.connected then waitHeader s es
  else ⟨Outcome.errored BLEError.deviceNotFound, s, 0⟩

/-- Model of the fragmentation loop of SMPBLETransport.send: for offset in
range of 0, len data, mtu, write the slice from offset to offset plus mtu.
The list of issued GATT writes, in order.  (With mtu equal to 0 the Python
range raises ValueError; the model returns the empty list and every
theorem about sends assumes 1 less-or-equal mtu.) -/
def sendWrites (mtu : Nat) (data : List Nat) : List (List Nat) :=
  (List.range ((data.length + mtu - 1) / mtu)).map
    (fun i => (data.drop (i * mtu)).take mtu)

/-- Model of SMPBLETransport.send: the method reads no connection state at
all (there is no check-connected call in its body), so the writes it
issues do not depend on the state argument. -/
def send (_s : TState) (mtu : Nat) (data : List Nat) : List (List Nat) :=
  sendWrites mtu data

/-- Result of a connect attempt: the raised error (if any), the transport
state afterwards, and whether start-notify subscribed the notification
callback. -/
structure ConnectResult where
  err : Option BLEError
  state : TState
  subscribed : Bool
deriving DecidableEq, Repr

/-- Model of SMPBLETransport.connect.  The scanner and GATT client
collaborators are abstracted by the parameters: found says address
resolution produced a device, hasSmpChar says the connected device exposes
the SMP characteristic; the underlying GATT connect itself is assumed to
succeed.  Mirrors the source order: the connected flag is set right after
the client connects and before the SMP characteristic lookup, and
start-notify runs only at the very end. -/
def connect (found hasSmpChar : Bool) (s : TState) : ConnectResult :=
  if found then
    let s1 : TState := { s with connected := true }
    if hasSmpChar then ⟨none, s1, true⟩
    else ⟨some BLEError.notSMPServer, s1, false⟩
  else ⟨some BLEError.deviceNotFound, s, false⟩

/-! Equation lemmas for the event semantics and the receive interpreter. -/

theorem applyEvent_chunk_true (b : List Nat) (conn : Bool) (d : List Nat) :
    applyEvent ⟨b, conn⟩ (Event.chunk true d) = (⟨b ++ d, conn⟩, true) := rfl

theorem applyEvent_chunk_false (s : TState) (d : List Nat) :
    applyEvent s (Event.chunk false d) = (s, false) := rfl

theorem applyEvent_disconnect_conn (b : List Nat) :
    applyEvent ⟨b, true⟩ Event.disconnect = (⟨b, false⟩, true) := rfl

theorem applyEvent_disconnect_disc (b : List Nat) :
    applyEvent ⟨b, false⟩ Event.disconnect = (⟨b, false⟩, false) := rfl

theorem applyEvent_buffer_extend (s : TState) (e : Event) :
    ∃ t, ((applyEvent s e).1).buffer = s.buffer ++ t := by
  obtain ⟨b, conn⟩ := s
  cases e with
  | chunk ok d =>
    cases ok
    · exact ⟨[], by simp [applyEvent_chunk_false]⟩
    · exact ⟨d, by simp [applyEvent_chunk_true]⟩
  | disconnect =>
    cases conn
    · exact ⟨[], by simp [applyEvent_disconnect_disc]⟩
    · exact ⟨[], by simp [applyEvent_disconnect_conn]⟩

theorem phase2_disconnected (L : Nat) (s : TState) (es : List Event)
    (h : s.connected = false) :
    phase2 L s es = ⟨Outcome.errored BLEError.deviceNotFound, s, 0⟩ := by
  unfold phase2
  simp [h]

theorem phase2_returns (L : Nat) (s : TState) (es : List Event)
    (hc : s.connected = true) (hl : s.buffer.length = L) :
    phase2 L s es = ⟨Outcome.returned s.buffer, { s with buffer := [] }, 1⟩ := by
  unfold phase2
  simp [hc, hl]

theorem phase2_overrun (L : Nat) (s : TState) (es : List Event)
    (hc : s.connected = true) (hl : L < s.buffer.length) :
    phase2 L s es
      = ⟨Outcome.errored (BLEError.transportException ExcReason.bufferOverrun), s, 0⟩ := by
  unfold phase2
  have hne : ¬ s.buffer.length = L := by omega
  simp [hc, hne, hl]

theorem phase2_wait_nil (L : Nat) (s : TState)
    (hc : s.connected = true) (hlt : s.buffer.length < L) :
    phase2 L s [] = ⟨Outcome.blocked, s, 0⟩ := by
  unfold phase2
  have h1 : ¬ s.buffer.length = L := by omega
  have h2 : ¬ L < s.buffer.length := by omega
  simp [hc, h1, h2]

theorem phase2_wait_cons (L : Nat) (s : TState) (e : Event) (rest : List Event)
    (hc : s.connected = true) (hlt : s.buffer.length < L) :
    phase2 L s (e :: rest) = phase2 L (applyEvent s e).1 rest := by
  conv_lhs => unfold phase2
  have h1 : ¬ s.buffer.length = L := by omega
  have h2 : ¬ L < s.buffer.length := by omega
  simp [hc, h1, h2]

theorem waitHeader_nil (s : TState) : waitHeader s [] = ⟨Outcome.blocked, s, 0⟩ := rfl

theorem waitHeader_chunk_true_small (b d : List Nat) (rest : List Event)
    (h : (b ++ d).length < Header.SIZE) :
    waitHeader ⟨b, true⟩ (Event.chunk true d :: rest)
      = ⟨Outcome.errored (BLEError.transportException ExcReason.bufferTooSmall),
          ⟨b ++ d, true⟩, 0⟩ := by
  have h2 : b.length + d.length < Header.SIZE := by simpa using h
  simp [waitHeader, applyEvent_chunk_true, h, h2]

theorem waitHeader_chunk_true_big (b d : List Nat) (rest : List Event)
    (h : ¬ (b ++ d).length < Header.SIZE) :
    waitHeader ⟨b, true⟩ (Event.chunk true d :: rest)
      = phase2 (headerLen (b ++ d) + Header.SIZE) ⟨b ++ d, true⟩ rest := by
  have h2 : ¬ b.length + d.length < Header.SIZE := by simpa using h
  simp [waitHeader, applyEvent_chunk_true, h, h2]

theorem waitHeader_chunk_false (s : TState) (d : List Nat) (rest : List Event) :
    waitHeader s (Event.chunk false d :: rest) = waitHeader s rest := by
  simp [waitHeader, applyEvent_chunk_false]

theorem waitHeader_disconnect_conn (b : List Nat) (rest : List Event) :
    waitHeader ⟨b, true⟩ (Event.disconnect :: rest)
      = ⟨Outcome.errored BLEError.deviceNotFound, ⟨b, false⟩, 0⟩ := by
  simp [waitHeader, applyEvent_disconnect_conn]

theorem waitHeader_disconnect_disc (b : List Nat) (rest : List Event) :
    waitHeader ⟨b, false⟩ (Event.disconnect :: rest) = waitHeader ⟨b, false⟩ rest := by
  simp [waitHeader, applyEvent_disconnect_disc]

theorem runReceive_conn (b : List Nat) (es : List Event) :
    runReceive ⟨b, true⟩ es = waitHeader ⟨b, true⟩ es := by
  simp [runReceive]

theorem runReceive_disc (b : List Nat) (es : List Event) :
    runReceive ⟨b, false⟩ es
      = ⟨Outcome.errored BLEError.deviceNotFound, ⟨b, false⟩, 0⟩ := by
  simp [runReceive]

/-! Facts about the fragmentation loop. -/

theorem sendWrites_empty (mtu : Nat) : sendWrites mtu [] = [] := by
  have h0 : (mtu - 1) / mtu = 0 := by
    rcases Nat.eq_zero_or_pos mtu with h | h
    · simp [h]
    · exact Nat.div_eq_of_lt (by omega)
  simp [sendWrites, h0]

theorem sendWrites_cons (mtu : Nat) (hk : 1 ≤ mtu) (data : List Nat)
    (hd : data ≠ []) :
    sendWrites mtu data = data.take mtu :: sendWrites mtu (data.drop mtu) := by
  have hlen : 0 < data.length := List.length_pos.mpr hd
  have hcount : (data.length + mtu - 1) / mtu
      = ((data.drop mtu).length + mtu - 1) / mtu + 1 := by
    rw [List.length_drop]
    rcases le_or_lt data.length mtu with h | h
    · have e1 : data.length + mtu - 1 = (data.length - 1) + mtu := by omega
      have e2 : data.length - mtu = 0 := by omega
      rw [e1, Nat.add_div_right _ (by omega), e2]
      have v1 : (data.length - 1) / mtu = 0 := Nat.div_eq_of_lt (by omega)
      have v2 : (0 + mtu - 1) / mtu = 0 := Nat.div_eq_of_lt (by omega)
      rw [v1, v2]
    · have e1 : data.length + mtu - 1 = (data.length - 1) + mtu := by omega
      have e2 : data.length - mtu + mtu - 1 = data.length - 1 := by omega
      rw [e1, e2, Nat.add_div_right _ (by omega)]
  unfold sendWrites
  rw [hcount, List.range_succ_eq_map, List.map_cons, List.map_map]
  congr 1
  · simp
  · refine List.map_congr_left ?_
    intro i _
    show (data.drop (Nat.succ i * mtu)).take mtu
        = ((data.drop mtu).drop (i * mtu)).take mtu
    rw [List.drop_drop, Nat.succ_mul, Nat.add_comm (i * mtu) mtu]

theorem sendWrites_flatten (mtu : Nat) (hk : 1 ≤ mtu) (data : List Nat) :
    (sendWrites mtu data).flatten = data := by
  suffices h : ∀ (n : Nat) (d : List Nat), d.length ≤ n →
      (sendWrites mtu d).flatten = d from h data.length data le_rfl
  intro n
  induction n with
  | zero =>
    intro d hd
    have : d = [] := by
      cases d with
      | nil => rfl
      | cons a t => simp at hd
    rw [this, sendWrites_empty]
    rfl
  | succ n ih =>
    intro d hd
    by_cases hdn : d = []
    · rw [hdn, sendWrites_empty]; rfl
    · have hpos : 0 < d.length := List.length_pos.mpr hdn
      rw [sendWrites_cons mtu hk d hdn, List.flatten_cons,
          ih (d.drop mtu) (by rw [List.length_drop]; omega),
          List.take_append_drop]

theorem sendWrites_size_le (mtu : Nat) (data : List Nat) :
    ∀ w ∈ sendWrites mtu data, w.length ≤ mtu := by
  intro w hw
  simp only [sendWrites, List.mem_map, List.mem_range] at hw
  obtain ⟨i, _, rfl⟩ := hw
  rw [List.length_take]
  exact Nat.min_le_left _ _

theorem sendWrites_sum (mtu : Nat) (hk : 1 ≤ mtu) (data : List Nat) :
    ((sendWrites mtu data).map List.length).sum = data.length := by
  rw [← List.length_flatten, sendWrites_flatten mtu hk data]

/-! Reassembly: feeding good chunks to a waiting message loop completes it. -/

theorem phase2_complete (cs : List (List Nat)) :
    ∀ (L : Nat) (b : List Nat),
      b.length + (cs.map List.length).sum = L →
      phase2 L ⟨b, true⟩ (cs.map (Event.chunk true))
        = ⟨Outcome.returned (b ++ cs.flatten), ⟨[], true⟩, 1⟩ := by
  induction cs with
  | nil =>
    intro L b hb
    simp only [List.map_nil, List.sum_nil, Nat.add_zero] at hb
    rw [List.map_nil, phase2_returns L ⟨b, true⟩ [] rfl hb]
    simp
  | cons c rest ih =>
    intro L b hb
    by_cases hbl : b.length = L
    · rw [phase2_returns L ⟨b, true⟩ _ rfl hbl]
      have hs : ((c :: rest).map List.length).sum = 0 := by omega
      have hfl : (c :: rest).flatten = [] := by
        have hl := List.length_flatten (c :: rest)
        rw [hs] at hl
        exact List.eq_nil_of_length_eq_zero hl
      simp [hfl]
    · have hlt : b.length < L := by
        have hnn : 0 ≤ ((c :: rest).map List.length).sum := Nat.zero_le _
        omega
      rw [List.map_cons, phase2_wait_cons L ⟨b, true⟩ _ _ rfl hlt,
          applyEvent_chunk_true]
      have hb' : (b ++ c).length + (rest.map List.length).sum = L := by
        rw [List.length_append]
        simp only [List.map_cons, List.sum_cons] at hb
        omega
      rw [ih L (b ++ c) hb']
      simp [List.append_assoc]

/-- First step of a receive against a first chunk big enough for a header:
it wakes the header wait and enters the message loop. -/
theorem runReceive_start (p : List Nat) (rest : List Event)
    (hp : ¬ p.length < Header.SIZE) :
    runReceive ⟨[], true⟩ (Event.chunk true p :: rest)
      = phase2 (headerLen p + Header.SIZE) ⟨p, true⟩ rest := by
  rw [runReceive_conn]
  have h := waitHeader_chunk_true_big [] p rest (by simpa using hp)
  simpa using h

/-- A complete well-formed message, delivered as any partition whose first
chunk already holds a full header, is reassembled exactly. -/
theorem receive_partition (m p : List Nat) (rest : List (List Nat))
    (hm : m.length = headerLen m + Header.SIZE)
    (hjoin : p ++ rest.flatten = m)
    (hp : Header.SIZE ≤ p.length) :
    runReceive ⟨[], true⟩ ((p :: rest).map (Event.chunk true))
      = ⟨Outcome.returned m, ⟨[], true⟩, 1⟩ := by
  subst hjoin
  rw [List.map_cons, runReceive_start p _ (by omega)]
  have hp8 : 8 ≤ p.length := hp
  have hpm : headerLen p = headerLen (p ++ rest.flatten) := by
    unfold headerLen
    rw [List.getD_eq_getElem?_getD, List.getD_eq_getElem?_getD,
        List.getD_eq_getElem?_getD, List.getD_eq_getElem?_getD]
    have h2c : 2 < p.length := by omega
    have h3c : 3 < p.length := by omega
    rw [List.getElem?_append, List.getElem?_append, if_pos h2c, if_pos h3c]
  have hsum : p.length + (rest.map List.length).sum = (p ++ rest.flatten).length := by
    rw [List.length_append, List.length_flatten]
  rw [hpm, ← hm, phase2_complete rest _ p hsum]

/-! A disconnect event always wakes and terminates a blocked receive. -/

theorem phase2_append_disconnect : ∀ (es : List Event) (L : Nat) (s : TState),
    (phase2 L s es).outcome = Outcome.blocked →
    (phase2 L s (es ++ [Event.disconnect])).outcome
      = Outcome.errored BLEError.deviceNotFound := by
  intro es
  induction es with
  | nil =>
    intro L s h
    obtain ⟨b, conn⟩ := s
    cases conn
    · rw [phase2_disconnected _ _ _ rfl] at h
      simp at h
    · rcases Nat.lt_trichotomy b.length L with hlt | heq | hgt
      · rw [List.nil_append, phase2_wait_cons _ _ _ _ rfl hlt,
            applyEvent_disconnect_conn]
        rw [phase2_disconnected _ _ _ rfl]
      · rw [phase2_returns _ _ _ rfl heq] at h
        simp at h
      · rw [phase2_overrun _ _ _ rfl hgt] at h
        simp at h
  | cons e rest ih =>
    intro L s h
    obtain ⟨b, conn⟩ := s
    cases conn
    · rw [phase2_disconnected _ _ _ rfl] at h
      simp at h
    · rcases Nat.lt_trichotomy b.length L with hlt | heq | hgt
      · rw [phase2_wait_cons _ _ _ _ rfl hlt] at h
        rw [List.cons_append, phase2_wait_cons _ _ _ _ rfl hlt]
        exact ih L _ h
      · rw [phase2_returns _ _ _ rfl heq] at h
        simp at h
      · rw [phase2_overrun _ _ _ rfl hgt] at h
        simp at h

theorem waitHeader_append_disconnect : ∀ (es : List Event) (b : List Nat),
    (waitHeader ⟨b, true⟩ es).outcome = Outcome.blocked →
    (waitHeader ⟨b, true⟩ (es ++ [Event.disconnect])).outcome
      = Outcome.errored BLEError.deviceNotFound := by
  intro es
  induction es with
  | nil =>
    intro b h
    rw [List.nil_append, waitHeader_disconnect_conn]
  | cons e rest ih =>
    intro b h
    cases e with
    | chunk ok d =>
      cases ok
      · rw [waitHeader_chunk_false] at h
        rw [List.cons_append, waitHeader_chunk_false]
        exact ih b h
      · by_cases hsz : (b ++ d).length < Header.SIZE
        · rw [waitHeader_chunk_true_small b d rest hsz] at h
          simp at h
        · rw [waitHeader_chunk_true_big b d rest hsz] at h
          rw [List.cons_append, waitHeader_chunk_true_big b d _ hsz]
          exact phase2_append_disconnect rest _ _ h
    | disconnect =>
      rw [waitHeader_disconnect_conn] at h
      simp at h

/-! What a returned message looks like. -/

theorem phase2_returned_shape : ∀ (es : List Event) (L : Nat) (s : TState)
    (msg : List Nat),
    (phase2 L s es).outcome = Outcome.returned msg →
    msg.length = L ∧ msg.take s.buffer.length = s.buffer := by
  intro es
  induction es with
  | nil =>
    intro L s msg h
    obtain ⟨b, conn⟩ := s
    cases conn
    · rw [phase2_disconnected _ _ _ rfl] at h
      simp at h
    · rcases Nat.lt_trichotomy b.length L with hlt | heq | hgt
      · rw [phase2_wait_nil _ _ rfl hlt] at h
        simp at h
      · rw [phase2_returns _ _ _ rfl heq] at h
        simp only [RecvRun.mk.injEq, Outcome.returned.injEq] at h
        subst h
        exact ⟨heq, List.take_length _⟩
      · rw [phase2_overrun _ _ _ rfl hgt] at h
        simp at h
  | cons e rest ih =>
    intro L s msg h
    obtain ⟨b, conn⟩ := s
    cases conn
    · rw [phase2_disconnected _ _ _ rfl] at h
      simp at h
    · rcases Nat.lt_trichotomy b.length L with hlt | heq | hgt
      · rw [phase2_wait_cons _ _ _ _ rfl hlt] at h
        obtain ⟨t, ht⟩ := applyEvent_buffer_extend ⟨b, true⟩ e
        have hih := ih L _ msg h
        rw [ht] at hih
        refine ⟨hih.1, ?_⟩
        have h2 := hih.2
        have hb_le : (⟨b, true⟩ : TState).buffer.length
            ≤ ((⟨b, true⟩ : TState).buffer ++ t).length := by simp
        rw [← min_eq_left hb_le, ← List.take_take, h2]
        exact List.take_left _ _
      · rw [phase2_returns _ _ _ rfl heq] at h
        simp only [RecvRun.mk.injEq, Outcome.returned.injEq] at h
        subst h
        exact ⟨heq, List.take_length _⟩
      · rw [phase2_overrun _ _ _ rfl hgt] at h
        simp at h

theorem waitHeader_returned : ∀ (es : List Event) (b : List Nat)
    (msg : List Nat),
    (waitHeader ⟨b, true⟩ es).outcome = Outcome.returned msg →
    msg.length = headerLen msg + Header.SIZE := by
  intro es
  induction es with
  | nil =>
    intro b msg h
    rw [waitHeader_nil] at h
    simp at h
  | cons e rest ih =>
    intro b msg h
    cases e with
    | chunk ok d =>
      cases ok
      · rw [waitHeader_chunk_false] at h
        exact ih b msg h
      · by_cases hsz : (b ++ d).length < Header.SIZE
        · rw [waitHeader_chunk_true_small _ _ _ hsz] at h
          simp at h
        · rw [waitHeader_chunk_true_big _ _ _ hsz] at h
          have hp := phase2_returned_shape rest _ _ msg h
          have hp1 := hp.1
          have hp2 := hp.2
          have hbd : 8 ≤ (b ++ d).length := Nat.le_of_not_lt hsz
          have hgd : headerLen (b ++ d) = headerLen msg := by
            rw [show b ++ d = msg.take (b ++ d).length from hp2.symm]
            unfold headerLen
            rw [List.getD_eq_getElem?_getD, List.getD_eq_getElem?_getD,
                List.getD_eq_getElem?_getD, List.getD_eq_getElem?_getD,
                List.getElem?_take, List.getElem?_take]
            have h2c : 2 < (b ++ d).length := by omega
            have h3c : 3 < (b ++ d).length := by omega
            rw [if_pos h2c, if_pos h3c]
          rw [hgd] at hp1
          exact hp1
    | disconnect =>
      rw [waitHeader_disconnect_conn] at h
      simp at h

theorem runReceive_returned (s : TState) (es : List Event) (msg : List Nat)
    (h : (runReceive s es).outcome = Outcome.returned msg) :
    msg.length = headerLen msg + Header.SIZE := by
  obtain ⟨b, conn⟩ := s
  cases conn
  · rw [runReceive_disc] at h
    simp at h
  · rw [runReceive_conn] at h
    exact waitHeader_returned es b msg h

/-! The buffer-clear operation runs exactly once per returned message and
never on any other path. -/

/-- Invariant tying the outcome of a run to the number of clear operations
it performed: a returned message means exactly one clear and an empty
buffer afterwards; every other outcome means no clear at all. -/
def clearsInv (r : RecvRun) : Prop :=
  match r.outcome with
  | Outcome.returned _ => r.clears = 1 ∧ r.state.buffer = []
  | _ => r.clears = 0

theorem phase2_clearsInv : ∀ (es : List Event) (L : Nat) (s : TState),
    clearsInv (phase2 L s es) := by
  intro es
  induction es with
  | nil =>
    intro L s
    obtain ⟨b, conn⟩ := s
    cases conn
    · rw [phase2_disconnected _ _ _ rfl]
      exact rfl
    · rcases Nat.lt_trichotomy b.length L with hlt | heq | hgt
      · rw [phase2_wait_nil _ _ rfl hlt]
        exact rfl
      · rw [phase2_returns _ _ _ rfl heq]
        exact ⟨rfl, rfl⟩
      · rw [phase2_overrun _ _ _ rfl hgt]
        exact rfl
  | cons e rest ih =>
    intro L s
    obtain ⟨b, conn⟩ := s
    cases conn
    · rw [phase2_disconnected _ _ _ rfl]
      exact rfl
    · rcases Nat.lt_trichotomy b.length L with hlt | heq | hgt
      · rw [phase2_wait_cons _ _ _ _ rfl hlt]
        exact ih L _
      · rw [phase2_returns _ _ _ rfl heq]
        exact ⟨rfl, rfl⟩
      · rw [phase2_overrun _ _ _ rfl hgt]
        exact rfl

theorem waitHeader_chunk_true_disc (b d : List Nat) (rest : List Event) :
    waitHeader ⟨b, false⟩ (Event.chunk true d :: rest)
      = ⟨Outcome.errored BLEError.deviceNotFound, ⟨b ++ d, false⟩, 0⟩ := by
  simp [waitHeader, applyEvent_chunk_true]

theorem waitHeader_clearsInv : ∀ (es : List Event) (s : TState),
    clearsInv (waitHeader s es) := by
  intro es
  induction es with
  | nil =>
    intro s
    rw [waitHeader_nil]
    exact rfl
  | cons e rest ih =>
    intro s
    obtain ⟨b, conn⟩ := s
    cases e with
    | chunk ok d =>
      cases ok
      · rw [waitHeader_chunk_false]
        exact ih _
      · cases conn
        · rw [waitHeader_chunk_true_disc]
          exact rfl
        · by_cases hsz : (b ++ d).length < Header.SIZE
          · rw [waitHeader_chunk_true_small _ _ _ hsz]
            exact rfl
          · rw [waitHeader_chunk_true_big _ _ _ hsz]
            exact phase2_clearsInv rest _ _
    | disconnect =>
      cases conn
      · rw [waitHeader_disconnect_disc]
        exact ih _
      · rw [waitHeader_disconnect_conn]
        exact rfl

theorem runReceive_clearsInv (s : TState) (es : List Event) :
    clearsInv (runReceive s es) := by
  obtain ⟨b, conn⟩ := s
  cases conn
  · rw [runReceive_disc]
    exact rfl
  · rw [runReceive_conn]
    exact waitHeader_clearsInv es _

/-! Concrete messages used by witnesses and counterexamples. -/

/-- An 8-byte well-formed SMP message: a bare header whose length field is
zero. -/
def m0 : List Nat := [0, 0, 0, 0, 0, 0, 0, 0]

/-- The 50-byte scenario message of the spec: an 8-byte header declaring a
42-byte payload, followed by 42 payload bytes. -/
def msg50 : List Nat := [0, 0, 0, 42, 0, 0, 0, 0] ++ List.replicate 42 7

/-! The claims. -/

/-- Claim C1 (amended): for every message m and MTU k at least 1, send
issues exactly ceiling of len m over k writes, which are precisely the
size-based slices of m at offsets 0, k, 2k and so on, each of size at most
k, and whose in-order concatenation is m.  For a well-formed message,
whenever the MTU is at least Header.SIZE (so that the first segment
already holds a full header), feeding those segments to the waiting
assembler in order makes receive return exactly m.  (The reassembly half
of the original claim, stated for every k at least 1, is false for
k below Header.SIZE: see the counterexample.) -/
theorem C1_fragmentation_roundtrip (m : List Nat) (k : Nat) (hk : 1 ≤ k) :
    (sendWrites k m).length = (m.length + k - 1) / k
    ∧ sendWrites k m
        = (List.range ((m.length + k - 1) / k)).map
            (fun i => (m.drop (i * k)).take k)
    ∧ (∀ w ∈ sendWrites k m, w.length ≤ k)
    ∧ (sendWrites k m).flatten = m
    ∧ (m.length = headerLen m + Header.SIZE → Header.SIZE ≤ k →
        runReceive ⟨[], true⟩ ((sendWrites k m).map (Event.chunk true))
          = ⟨Outcome.returned m, ⟨[], true⟩, 1⟩) := by
  refine ⟨by simp [sendWrites], rfl, sendWrites_size_le k m,
    sendWrites_flatten k hk m, ?_⟩
  intro hm hks
  have hS : Header.SIZE = 8 := rfl
  rw [hS] at hm hks
  have hm8 : 8 ≤ m.length := by omega
  have hne : m ≠ [] := by
    intro h
    rw [h] at hm8
    simp at hm8
  rw [sendWrites_cons k hk m hne]
  refine receive_partition m (m.take k) (sendWrites k (m.drop k)) hm ?_ ?_
  · rw [sendWrites_flatten k hk (m.drop k), List.take_append_drop]
  · rw [List.length_take, hS]
    omega

/-- Witness for C1 at the 50-byte, MTU-20 scenario of the spec. -/
theorem C1_fragmentation_roundtrip_witness :
    (sendWrites 20 msg50).flatten = msg50
    ∧ runReceive ⟨[], true⟩ ((sendWrites 20 msg50).map (Event.chunk true))
        = ⟨Outcome.returned msg50, ⟨[], true⟩, 1⟩ :=
  ⟨(C1_fragmentation_roundtrip msg50 20 (by decide)).2.2.2.1,
   (C1_fragmentation_roundtrip msg50 20 (by decide)).2.2.2.2 (by decide) (by decide)⟩

/-- Counterexample to C1 as stated: with MTU 1, below the header size, the
well-formed 8-byte message m0 is fragmented into single-byte writes, and
feeding them to the waiting assembler makes receive fail with the
buffer-too-small exception at the first notify instead of returning m0. -/
theorem C1_counterexample :
    1 ≤ 1
    ∧ m0.length = headerLen m0 + Header.SIZE
    ∧ (runReceive ⟨[], true⟩ ((sendWrites 1 m0).map (Event.chunk true))).outcome
        = Outcome.errored (BLEError.transportException ExcReason.bufferTooSmall)
    ∧ (runReceive ⟨[], true⟩ ((sendWrites 1 m0).map (Event.chunk true))).outcome
        ≠ Outcome.returned m0 := by decide

/-- Claim C2: receive never returns a message whose length differs from
the expected total length decoded from its own header (length field plus
Header.SIZE); and whenever an iteration of the message loop sees the
buffer longer than the expected length, it fails with the framing
exception (buffer passed expected message size) instead of returning or
truncating. -/
theorem C2_header_length_enforced :
    (∀ (s : TState) (es : List Event) (msg : List Nat),
        (runReceive s es).outcome = Outcome.returned msg →
        msg.length = headerLen msg + Header.SIZE)
    ∧ (∀ (L : Nat) (s : TState) (es : List Event),
        s.connected = true → L < s.buffer.length →
        phase2 L s es
          = ⟨Outcome.errored (BLEError.transportException ExcReason.bufferOverrun),
              s, 0⟩) :=
  ⟨runReceive_returned, fun L s es hc hl => phase2_overrun L s es hc hl⟩

/-- Witness for C2: a complete message is returned with the decoded
length, and a loop check with an over-long buffer raises the framing
exception. -/
theorem C2_header_length_enforced_witness :
    ((runReceive ⟨[], true⟩ [Event.chunk true m0]).outcome = Outcome.returned m0
      ∧ m0.length = headerLen m0 + Header.SIZE)
    ∧ phase2 0 ⟨[5], true⟩ []
        = ⟨Outcome.errored (BLEError.transportException ExcReason.bufferOverrun),
            ⟨[5], true⟩, 0⟩ :=
  ⟨⟨by decide,
    C2_header_length_enforced.1 ⟨[], true⟩ [Event.chunk true m0] m0 (by decide)⟩,
   C2_header_length_enforced.2 0 ⟨[5], true⟩ [] rfl (by decide)⟩

/-- Claim C3: whenever receive is still blocked waiting after a sequence
of events (before any bytes arrived, or mid-message), a disconnect event
wakes it and it terminates with the not-connected error (the
SMPBLETransportDeviceNotFound raised by the connected check) instead of
hanging or returning partial data. -/
theorem C3_disconnect_wakes_receive (s : TState) (es : List Event)
    (h : (runReceive s es).outcome = Outcome.blocked) :
    (runReceive s (es ++ [Event.disconnect])).outcome
      = Outcome.errored BLEError.deviceNotFound := by
  obtain ⟨b, conn⟩ := s
  cases conn
  · rw [runReceive_disc] at h
    simp at h
  · rw [runReceive_conn] at h
    rw [runReceive_conn]
    exact waitHeader_append_disconnect es b h

/-- Witness for C3: a receive blocked mid-message (8 header bytes arrived,
2 more expected) errors out when the disconnect arrives. -/
theorem C3_disconnect_wakes_receive_witness :
    (runReceive ⟨[], true⟩ [Event.chunk true [0, 0, 0, 2, 0, 0, 0, 0]]).outcome
      = Outcome.blocked
    ∧ (runReceive ⟨[], true⟩
          ([Event.chunk true [0, 0, 0, 2, 0, 0, 0, 0]] ++ [Event.disconnect])).outcome
        = Outcome.errored BLEError.deviceNotFound :=
  ⟨by decide, C3_disconnect_wakes_receive ⟨[], true⟩ _ (by decide)⟩

/-- Counterexample to C4 as stated: send performs no connection check, so
a send while already disconnected still issues its GATT write instead of
failing with a not-connected error before any Link write. -/
theorem C4_counterexample :
    send ⟨[], false⟩ 8 [1, 2, 3] = [[1, 2, 3]]
    ∧ send ⟨[], false⟩ 8 [1, 2, 3] ≠ [] := by decide

/-- Claim C4 (amended): when the transport is already disconnected,
receive fails immediately with the not-connected error, consuming no
events, not blocking and leaving the state untouched; send, however,
contains no connection check and issues exactly the writes it would issue
when connected (a failure, if any, would come from the GATT client's own
write call). -/
theorem C4_disconnected_operations (s : TState) (h : s.connected = false) :
    (∀ es, runReceive s es = ⟨Outcome.errored BLEError.deviceNotFound, s, 0⟩)
    ∧ (∀ mtu data, send s mtu data = sendWrites mtu data) := by
  constructor
  · intro es
    obtain ⟨b, conn⟩ := s
    cases conn
    · exact runReceive_disc b es
    · simp at h
  · intro mtu data
    rfl

/-- Witness for C4 on a disconnected state. -/
theorem C4_disconnected_operations_witness :
    runReceive ⟨[], false⟩ []
      = ⟨Outcome.errored BLEError.deviceNotFound, ⟨[], false⟩, 0⟩
    ∧ send ⟨[], false⟩ 8 [1, 2, 3] = sendWrites 8 [1, 2, 3] :=
  ⟨(C4_disconnected_operations ⟨[], false⟩ rfl).1 [],
   (C4_disconnected_operations ⟨[], false⟩ rfl).2 8 [1, 2, 3]⟩

/-- Counterexample to C5 as stated: a single chunk of exactly
Header.SIZE minus 1 bytes does not leave receive blocked; the first
notify wakes it and it fails with the buffer-too-small exception. -/
theorem C5_counterexample :
    (runReceive ⟨[], true⟩ [Event.chunk true [0, 0, 0, 0, 0, 0, 0]]).outcome
      = Outcome.errored (BLEError.transportException ExcReason.bufferTooSmall) := by
  decide

/-- Claim C5 (amended): while no notify has occurred receive stays blocked
and never attempts a header decode; but when the first notify wakes it
with fewer than Header.SIZE bytes buffered (in particular with exactly
Header.SIZE minus 1 bytes), receive raises the buffer-too-small
SMPBLETransportException rather than remaining blocked.  In no case does
it decode a header from fewer than Header.SIZE bytes. -/
theorem C5_short_first_chunk :
    (runReceive ⟨[], true⟩ []).outcome = Outcome.blocked
    ∧ (∀ d : List Nat, d.length < Header.SIZE →
        runReceive ⟨[], true⟩ [Event.chunk true d]
          = ⟨Outcome.errored (BLEError.transportException ExcReason.bufferTooSmall),
              ⟨d, true⟩, 0⟩) := by
  constructor
  · rfl
  · intro d hd
    rw [runReceive_conn]
    have h := waitHeader_chunk_true_small [] d [] (by simpa using hd)
    simpa using h

/-- Witness for C5 with a 7-byte first chunk. -/
theorem C5_short_first_chunk_witness :
    runReceive ⟨[], true⟩ [Event.chunk true [1, 2, 3, 4, 5, 6, 7]]
      = ⟨Outcome.errored (BLEError.transportException ExcReason.bufferTooSmall),
          ⟨[1, 2, 3, 4, 5, 6, 7], true⟩, 0⟩ :=
  C5_short_first_chunk.2 [1, 2, 3, 4, 5, 6, 7] (by decide)

/-- Counterexample to C6 as stated: the 8-byte well-formed message m0
delivered as a single chunk is returned, but delivered one byte at a time
the same receive fails, so the reassembly result does depend on the
partition. -/
theorem C6_counterexample :
    ([m0] : List (List Nat)).flatten = m0
    ∧ (m0.map (fun b => [b])).flatten = m0
    ∧ runReceive ⟨[], true⟩ ([m0].map (Event.chunk true))
        ≠ runReceive ⟨[], true⟩ ((m0.map (fun b => [b])).map (Event.chunk true)) := by
  decide

/-- Claim C6 (amended): reassembly is independent of the chunk partition
provided the first chunk holds at least a full header: for a well-formed
message m and any partition of m whose first part has at least Header.SIZE
bytes, feeding the parts to the waiting assembler in delivery order (they
are appended without reordering or deduplication) returns exactly m.
Partitions whose first part is shorter instead fail with the
buffer-too-small exception. -/
theorem C6_chunk_boundary_independence (m p : List Nat)
    (rest : List (List Nat))
    (hm : m.length = headerLen m + Header.SIZE)
    (hjoin : (p :: rest).flatten = m)
    (hp : Header.SIZE ≤ p.length) :
    runReceive ⟨[], true⟩ ((p :: rest).map (Event.chunk true))
      = ⟨Outcome.returned m, ⟨[], true⟩, 1⟩ := by
  have hj : p ++ rest.flatten = m := by
    rw [← List.flatten_cons]
    exact hjoin
  exact receive_partition m p rest hm hj hp

/-- Witness for C6: the one-chunk partition of m0. -/
theorem C6_chunk_boundary_independence_witness :
    runReceive ⟨[], true⟩ (([m0] : List (List Nat)).map (Event.chunk true))
      = ⟨Outcome.returned m0, ⟨[], true⟩, 1⟩ :=
  C6_chunk_boundary_independence m0 m0 [] (by decide) (by decide) (by decide)

/-- Claim C7 (code bug): a connect attempt that resolves and reaches the
device but finds the SMP characteristic missing raises
SMPBLETransportNotSMPServer after the connected flag was already set, and
never subscribes the notification callback.  A subsequent receive then
passes the connected check and blocks (no notification can ever arrive),
whereas in the disconnected state it would fail immediately — so the
failed connect does not leave the transport behaving as disconnected.
The resolution-failure path, by contrast, does leave it disconnected. -/
theorem C7_failed_connect_leaves_connected :
    (connect true false ⟨[], false⟩).err = some BLEError.notSMPServer
    ∧ (connect true false ⟨[], false⟩).state.connected = true
    ∧ (connect true false ⟨[], false⟩).subscribed = false
    ∧ (runReceive (connect true false ⟨[], false⟩).state []).outcome
        = Outcome.blocked
    ∧ (runReceive ⟨[], false⟩ []).outcome = Outcome.errored BLEError.deviceNotFound
    ∧ (connect false false ⟨[], false⟩).err = some BLEError.deviceNotFound
    ∧ (connect false false ⟨[], false⟩).state.connected = false := by
  decide

/-- Claim C8: the receive buffer is cleared exactly once per completed
message, after the message bytes are extracted: a successful receive
performs exactly one clear and leaves the buffer empty, a failing or
still-blocked receive performs no clear, and the notification callback
only ever appends (never clears). -/
theorem C8_buffer_cleared_once_per_message :
    (∀ (s : TState) (es : List Event) (msg : List Nat),
        (runReceive s es).outcome = Outcome.returned msg →
        (runReceive s es).clears = 1 ∧ (runReceive s es).state.buffer = [])
    ∧ (∀ (s : TState) (es : List Event) (e : BLEError),
        (runReceive s es).outcome = Outcome.errored e →
        (runReceive s es).clears = 0)
    ∧ (∀ (s : TState) (es : List Event),
        (runReceive s es).outcome = Outcome.blocked →
        (runReceive s es).clears = 0)
    ∧ (∀ (ok : Bool) (b d : List Nat),
        (notify_callback ok b d).2 = b ++ (if ok then d else [])) := by
  refine ⟨?_, ?_, ?_, ?_⟩
  · intro s es msg h
    have hi := runReceive_clearsInv s es
    unfold clearsInv at hi
    rw [h] at hi
    exact hi
  · intro s es e h
    have hi := runReceive_clearsInv s es
    unfold clearsInv at hi
    rw [h] at hi
    exact hi
  · intro s es h
    have hi := runReceive_clearsInv s es
    unfold clearsInv at hi
    rw [h] at hi
    exact hi
  · intro ok b d
    cases ok
    · simp [notify_callback]
    · simp [notify_callback]

/-- Witness for C8: one clear on a successful receive, none on a failing
or blocked one, and the callback appends. -/
theorem C8_buffer_cleared_once_per_message_witness :
    ((runReceive ⟨[], true⟩ [Event.chunk true m0]).clears = 1
      ∧ (runReceive ⟨[], true⟩ [Event.chunk true m0]).state.buffer = [])
    ∧ (runReceive ⟨[], false⟩ []).clears = 0
    ∧ (runReceive ⟨[], true⟩ []).clears = 0
    ∧ (notify_callback true [1] [2]).2 = [1] ++ (if true then [2] else []) :=
  ⟨C8_buffer_cleared_once_per_message.1 ⟨[], true⟩ [Event.chunk true m0] m0 (by decide),
   C8_buffer_cleared_once_per_message.2.1 ⟨[], false⟩ [] BLEError.deviceNotFound (by decide),
   C8_buffer_cleared_once_per_message.2.2.1 ⟨[], true⟩ [] (by decide),
   C8_buffer_cleared_once_per_message.2.2.2 true [1] [2]⟩

/-- Claim C9: a notification whose sender is not the SMP characteristic
makes the notification handler fail with the SMPBLETransportException for
an unexpected sender, and the receive buffer is left unchanged (the bytes
are not appended). -/
theorem C9_unexpected_sender_rejected (b d : List Nat) :
    notify_callback false b d
      = (some (BLEError.transportException ExcReason.unexpectedSender), b) := rfl

/-- Claim C10: sending the empty byte string issues zero GATT writes (the
loop over range of 0, 0, mtu runs no iterations) and returns
successfully. -/
theorem C10_send_empty (s : TState) (mtu : Nat) (h : 1 ≤ mtu) :
    send s mtu [] = [] :=
  sendWrites_empty mtu

/-- Witness for C10 at MTU 23. -/
theorem C10_send_empty_witness : send ⟨[], true⟩ 23 [] = [] :=
  C10_send_empty ⟨[], true⟩ 23 (by decide)
